import Mathlib

/-!
Verification of the hexapod forward-kinematics core (`hexapod/models.py`)
against its natural-language specification.

The Python source is shallowly embedded: floating point numbers become real
numbers, numpy 4x4 homogeneous-transform matrices become
`Matrix (Fin 4) (Fin 4) ℝ`, Python object mutation becomes functional record
update, and Python's stable `sorted(..., reverse=True)` becomes insertion
sort with a "greater or equal floor height" relation (which is the stable
descending sort).
-/

open Matrix

/-- Degrees to radians, as `np.radians`. -/
noncomputable def radians (theta : ℝ) : ℝ := theta * (Real.pi / 180)

/-- `frame_yrotate_xtranslate(theta, x)` from `models.py`: rotation about the
y axis by `theta` degrees, translation by `x` along x. -/
noncomputable def frame_yrotate_xtranslate (theta x : ℝ) : Matrix (Fin 4) (Fin 4) ℝ :=
  !![Real.cos (radians theta), 0, Real.sin (radians theta), x;
     0, 1, 0, 0;
     -Real.sin (radians theta), 0, Real.cos (radians theta), 0;
     0, 0, 0, 1]

/-- `frame_zrotate_xytranslate(theta, x, y)` from `models.py`: rotation about
the z axis by `theta` degrees, translation by `(x, y)`. -/
noncomputable def frame_zrotate_xytranslate (theta x y : ℝ) : Matrix (Fin 4) (Fin 4) ℝ :=
  !![Real.cos (radians theta), -Real.sin (radians theta), 0, x;
     Real.sin (radians theta), Real.cos (radians theta), 0, y;
     0, 0, 1, 0;
     0, 0, 0, 1]

/-- The `Point` class: a labeled 3D coordinate. -/
structure Point where
  x : ℝ
  y : ℝ
  z : ℝ
  name : Option String

/-- `Point.get_point_wrt`: homogeneous matrix-vector product with implicit
`w = 1`; the resulting point carries no name (Python passes `name=None`). -/
noncomputable def Point.get_point_wrt (p : Point) (reference_frame : Matrix (Fin 4) (Fin 4) ℝ) :
    Point :=
  let q := reference_frame.mulVec ![p.x, p.y, p.z, 1]
  ⟨q 0, q 1, q 2, none⟩

/-- The state of a `Linkage` object: its stored attributes. -/
structure Linkage where
  name : Option String
  _a : ℝ
  _b : ℝ
  _c : ℝ
  _new_x_axis : ℝ
  _new_origin : Point
  _alpha : ℝ
  _beta : ℝ
  _gamma : ℝ
  p0 : Point
  p1 : Point
  p2 : Point
  p3 : Point

/-- `Linkage.save_new_pose(alpha, beta, gamma)`: stores the three joint
angles and recomputes the derived points `p0..p3`. -/
noncomputable def Linkage.save_new_pose (l : Linkage) (alpha beta gamma : ℝ) : Linkage :=
  let frame_01 := frame_yrotate_xtranslate (-beta) l._a
  let frame_12 := frame_yrotate_xtranslate (90 - gamma) l._b
  let frame_23 := frame_yrotate_xtranslate 0 l._c
  let frame_02 := frame_01 * frame_12
  let frame_03 := frame_02 * frame_23
  let new_frame := frame_zrotate_xytranslate (l._new_x_axis + alpha) l._new_origin.x l._new_origin.y
  let q0 : Point := ⟨0, 0, 0, none⟩
  let q1 := q0.get_point_wrt frame_01
  let q2 := q0.get_point_wrt frame_02
  let q3 := q0.get_point_wrt frame_03
  { l with
    _alpha := alpha, _beta := beta, _gamma := gamma,
    p0 := l._new_origin,
    p1 := { q1.get_point_wrt new_frame with name := some "coxia" },
    p2 := { q2.get_point_wrt new_frame with name := some "femur" },
    p3 := { q3.get_point_wrt new_frame with name := some "tibia" } }

/-- `Linkage.__init__`: stores the attributes, then saves the initial pose.
The pose fields of the intermediate record are placeholders that
`save_new_pose` overwrites. -/
noncomputable def Linkage.init (a b c alpha beta gamma new_x_axis : ℝ) (new_origin : Point)
    (name : Option String) : Linkage :=
  Linkage.save_new_pose
    { name := name, _a := a, _b := b, _c := c,
      _new_x_axis := new_x_axis, _new_origin := new_origin,
      _alpha := 0, _beta := 0, _gamma := 0,
      p0 := ⟨0, 0, 0, none⟩, p1 := ⟨0, 0, 0, none⟩,
      p2 := ⟨0, 0, 0, none⟩, p3 := ⟨0, 0, 0, none⟩ }
    alpha beta gamma

/-- Python's `value or default` applied to an optional float argument:
`None` and `0.0` are falsy, every other real is truthy. -/
noncomputable def pyOr (v : Option ℝ) (default : ℝ) : ℝ :=
  match v with
  | none => default
  | some t => if t = 0 then default else t

/-- `Linkage.change_pose(alpha=None, beta=None, gamma=None)`:
`alpha = alpha or self._alpha` (and likewise for beta, gamma), then
`save_new_pose`. -/
noncomputable def Linkage.change_pose (l : Linkage) (alpha beta gamma : Option ℝ) : Linkage :=
  l.save_new_pose (pyOr alpha l._alpha) (pyOr beta l._beta) (pyOr gamma l._gamma)

/-- `Linkage.toe()`: returns `p3`. -/
def Linkage.toe (l : Linkage) : Point := l.p3

/-- `Linkage.floor_height()`: returns `-p3.z`. -/
def Linkage.floor_height (l : Linkage) : ℝ := -l.p3.z

/-- The `Hexagon` body: three shape scalars and the fixed derived points. -/
structure Hexagon where
  f : ℝ
  m : ℝ
  s : ℝ
  cog : Point
  head : Point
  vertices : List Point

/-- `Hexagon.VERTEX_NAMES`. -/
def Hexagon.VERTEX_NAMES : List String :=
  ["right-middle", "right-front", "left-front", "left-middle", "left-back", "right-back"]

/-- `Hexagon.NEW_X_AXES`: the per-vertex mount headings, in degrees. -/
def Hexagon.NEW_X_AXES : List ℝ := [0, 45, 135, 180, 225, 315]

/-- `Hexagon.__init__(f, m, s)`. -/
def Hexagon.init (f m s : ℝ) : Hexagon :=
  { f := f, m := m, s := s,
    cog := ⟨0, 0, 0, none⟩,
    head := ⟨0, s, 0, none⟩,
    vertices :=
      [⟨m, 0, 0, none⟩, ⟨f, s, 0, none⟩, ⟨-f, s, 0, none⟩,
       ⟨-m, 0, 0, none⟩, ⟨-f, -s, 0, none⟩, ⟨f, -s, 0, none⟩] }

/-- The `VirtualHexapod` state. -/
structure VirtualHexapod where
  linkage_measurements : List ℝ
  body_measurements : List ℝ
  body : Hexagon
  legs : List Linkage

/-- `VirtualHexapod.store_neutral_legs(a, b, c)`: one neutral-pose linkage per
vertex, zipped with the heading table and the name table. -/
noncomputable def store_neutral_legs (a b c : ℝ) (body : Hexagon) : List Linkage :=
  (body.vertices.zip (Hexagon.NEW_X_AXES.zip Hexagon.VERTEX_NAMES)).map
    fun pt => Linkage.init a b c 0 0 0 pt.2.1 pt.1 (some pt.2.2)

/-- `VirtualHexapod.__init__(a, b, c, f, m, s)`. -/
noncomputable def VirtualHexapod.init (a b c f m s : ℝ) : VirtualHexapod :=
  { linkage_measurements := [a, b, c],
    body_measurements := [f, m, s],
    body := Hexagon.init f m s,
    legs := store_neutral_legs a b c (Hexagon.init f m s) }

/-- The comparison relation of the leg sort: `x` precedes `y` when `x`'s floor
height is at least `y`'s. -/
def fhGe (x y : Linkage) : Prop := y.floor_height ≤ x.floor_height

noncomputable instance : DecidableRel fhGe :=
  fun x y => inferInstanceAs (Decidable (y.floor_height ≤ x.floor_height))

instance : IsTotal Linkage fhGe := ⟨fun a b => le_total b.floor_height a.floor_height⟩

instance : IsTrans Linkage fhGe := ⟨fun _ _ _ h1 h2 => le_trans h2 h1⟩

/-- `sorted(self.legs, key=take_floor_height, reverse=True)`: Python's stable
sort, descending by floor height, embedded as insertion sort on `fhGe`. -/
noncomputable def sortDesc (legs : List Linkage) : List Linkage :=
  List.insertionSort fhGe legs

/-- The body of `find_feet_on_ground` after the sort; the fallthrough case is
unreachable for a six-legged hexapod (Python would raise `IndexError`). -/
noncomputable def findFeetAux : List Linkage → Option (List Linkage) × Option Linkage
  | s0 :: s1 :: s2 :: rest =>
      if s0.floor_height ≤ 0 then (none, none)
      else
        let feet_on_floor := (s0 :: s1 :: s2 :: rest).takeWhile
          fun leg => decide (s2.floor_height - 2 ≤ leg.floor_height)
        (some feet_on_floor, feet_on_floor.head?)
  | _ => (none, none)

/-- `VirtualHexapod.find_feet_on_ground()`. -/
noncomputable def VirtualHexapod.find_feet_on_ground (self : VirtualHexapod) :
    Option (List Linkage) × Option Linkage :=
  findFeetAux (sortDesc self.legs)

/-! ## Geometry helper lemmas -/

lemma radians_zero : radians 0 = 0 := by simp [radians]

lemma radians_neg (t : ℝ) : radians (-t) = -(radians t) := by unfold radians; ring

lemma radians_sub90 (t : ℝ) : radians (90 - t) = Real.pi / 2 - radians t := by
  unfold radians; ring

lemma get_point_wrt_y (p : Point) (theta x : ℝ) :
    p.get_point_wrt (frame_yrotate_xtranslate theta x) =
      ⟨Real.cos (radians theta) * p.x + Real.sin (radians theta) * p.z + x,
       p.y,
       -(Real.sin (radians theta)) * p.x + Real.cos (radians theta) * p.z, none⟩ := by
  simp [Point.get_point_wrt, frame_yrotate_xtranslate, Matrix.mulVec, Matrix.dotProduct,
    Fin.sum_univ_four]

lemma get_point_wrt_z (p : Point) (theta x y : ℝ) :
    p.get_point_wrt (frame_zrotate_xytranslate theta x y) =
      ⟨Real.cos (radians theta) * p.x - Real.sin (radians theta) * p.y + x,
       Real.sin (radians theta) * p.x + Real.cos (radians theta) * p.y + y,
       p.z, none⟩ := by
  simp [Point.get_point_wrt, frame_zrotate_xytranslate, Matrix.mulVec, Matrix.dotProduct,
    Fin.sum_univ_four]
  ring_nf

lemma get_point_wrt_mul (p : Point) (M N : Matrix (Fin 4) (Fin 4) ℝ)
    (h0 : N 3 0 = 0) (h1 : N 3 1 = 0) (h2 : N 3 2 = 0) (h3 : N 3 3 = 1) :
    p.get_point_wrt (M * N) = (p.get_point_wrt N).get_point_wrt M := by
  have key : ![(N.mulVec ![p.x, p.y, p.z, 1]) 0, (N.mulVec ![p.x, p.y, p.z, 1]) 1,
      (N.mulVec ![p.x, p.y, p.z, 1]) 2, 1] = N.mulVec ![p.x, p.y, p.z, 1] := by
    funext i
    fin_cases i <;>
      simp [Matrix.mulVec, Matrix.dotProduct, Fin.sum_univ_four, h0, h1, h2, h3]
  simp only [Point.get_point_wrt, key, ← Matrix.mulVec_mulVec]

lemma frame_y_30 (t x : ℝ) : (frame_yrotate_xtranslate t x) 3 0 = 0 := by
  simp [frame_yrotate_xtranslate]

lemma frame_y_31 (t x : ℝ) : (frame_yrotate_xtranslate t x) 3 1 = 0 := by
  simp [frame_yrotate_xtranslate, Matrix.vecHead, Matrix.vecTail]

lemma frame_y_32 (t x : ℝ) : (frame_yrotate_xtranslate t x) 3 2 = 0 := by
  simp [frame_yrotate_xtranslate, Matrix.vecHead, Matrix.vecTail]

lemma frame_y_33 (t x : ℝ) : (frame_yrotate_xtranslate t x) 3 3 = 1 := by
  simp [frame_yrotate_xtranslate]

/-- Closed form of `save_new_pose`: the stored angles and the four derived
points, with all matrix algebra evaluated. -/
lemma save_new_pose_eq (l : Linkage) (alpha beta gamma : ℝ) :
    l.save_new_pose alpha beta gamma =
      { l with
        _alpha := alpha, _beta := beta, _gamma := gamma,
        p0 := l._new_origin,
        p1 := ⟨Real.cos (radians (l._new_x_axis + alpha)) * l._a + l._new_origin.x,
               Real.sin (radians (l._new_x_axis + alpha)) * l._a + l._new_origin.y,
               0, some "coxia"⟩,
        p2 := ⟨Real.cos (radians (l._new_x_axis + alpha)) *
                 (l._a + l._b * Real.cos (radians beta)) + l._new_origin.x,
               Real.sin (radians (l._new_x_axis + alpha)) *
                 (l._a + l._b * Real.cos (radians beta)) + l._new_origin.y,
               l._b * Real.sin (radians beta), some "femur"⟩,
        p3 := ⟨Real.cos (radians (l._new_x_axis + alpha)) *
                 (l._a + l._b * Real.cos (radians beta) +
                  l._c * Real.sin (radians beta + radians gamma)) + l._new_origin.x,
               Real.sin (radians (l._new_x_axis + alpha)) *
                 (l._a + l._b * Real.cos (radians beta) +
                  l._c * Real.sin (radians beta + radians gamma)) + l._new_origin.y,
               l._b * Real.sin (radians beta) -
                 l._c * Real.cos (radians beta + radians gamma), some "tibia"⟩ } := by
  have h02 : ∀ p : Point, p.get_point_wrt
      (frame_yrotate_xtranslate (-beta) l._a * frame_yrotate_xtranslate (90 - gamma) l._b) =
      (p.get_point_wrt (frame_yrotate_xtranslate (90 - gamma) l._b)).get_point_wrt
        (frame_yrotate_xtranslate (-beta) l._a) := fun p =>
    get_point_wrt_mul p _ _ (frame_y_30 _ _) (frame_y_31 _ _) (frame_y_32 _ _) (frame_y_33 _ _)
  have h03 : ∀ p : Point, p.get_point_wrt
      (frame_yrotate_xtranslate (-beta) l._a * frame_yrotate_xtranslate (90 - gamma) l._b *
        frame_yrotate_xtranslate 0 l._c) =
      ((p.get_point_wrt (frame_yrotate_xtranslate 0 l._c)).get_point_wrt
        (frame_yrotate_xtranslate (90 - gamma) l._b)).get_point_wrt
        (frame_yrotate_xtranslate (-beta) l._a) := by
    intro p
    rw [get_point_wrt_mul p _ _ (frame_y_30 _ _) (frame_y_31 _ _) (frame_y_32 _ _)
      (frame_y_33 _ _), h02]
  simp only [Linkage.save_new_pose, h02, h03, get_point_wrt_y, get_point_wrt_z]
  simp only [radians_zero, radians_neg, radians_sub90, Real.cos_zero, Real.sin_zero,
    Real.cos_neg, Real.sin_neg, Real.cos_pi_div_two_sub, Real.sin_pi_div_two_sub,
    Real.cos_add, Real.sin_add]
  congr 1 <;> ring_nf

/-- The floor height after a re-pose depends only on the dimensions and the
pitch angles. -/
lemma floor_height_save_new_pose (l : Linkage) (alpha beta gamma : ℝ) :
    (l.save_new_pose alpha beta gamma).floor_height =
      l._c * Real.cos (radians beta + radians gamma) - l._b * Real.sin (radians beta) := by
  rw [save_new_pose_eq]
  simp [Linkage.floor_height]

/-- The floor height of a freshly constructed linkage. -/
lemma floor_height_init (a b c alpha beta gamma nx : ℝ) (o : Point) (n : Option String) :
    (Linkage.init a b c alpha beta gamma nx o n).floor_height =
      c * Real.cos (radians beta + radians gamma) - b * Real.sin (radians beta) := by
  unfold Linkage.init
  rw [floor_height_save_new_pose]

lemma save_new_pose_alpha (l : Linkage) (a b g : ℝ) : (l.save_new_pose a b g)._alpha = a := rfl

lemma save_new_pose_beta (l : Linkage) (a b g : ℝ) : (l.save_new_pose a b g)._beta = b := rfl

lemma save_new_pose_gamma (l : Linkage) (a b g : ℝ) : (l.save_new_pose a b g)._gamma = g := rfl

/-! ## C10: frame effect of `change_pose` -/

/-- C10: for every `Linkage` and every `change_pose` call, the segment lengths
`a, b, c`, the mount heading, the mount origin and the name are unchanged by
the call, and afterwards `p0` still equals the mount origin; only the three
joint angles and the derived points are reassigned (they are the only other
fields of the state). -/
theorem change_pose_preserves_attributes (l : Linkage) (a b g : Option ℝ) :
    (l.change_pose a b g)._a = l._a ∧
    (l.change_pose a b g)._b = l._b ∧
    (l.change_pose a b g)._c = l._c ∧
    (l.change_pose a b g)._new_x_axis = l._new_x_axis ∧
    (l.change_pose a b g)._new_origin = l._new_origin ∧
    (l.change_pose a b g).name = l.name ∧
    (l.change_pose a b g).p0 = l._new_origin :=
  ⟨rfl, rfl, rfl, rfl, rfl, rfl, rfl⟩

/-! ## C8: hexagon layout -/

/-- C8: for `f=1, m=2, s=3` the hexagon has `vertices[0] = (2,0,0)` and
`vertices[1] = (1,3,0)`, and for every `f, m, s` the componentwise sum of the
six vertices is `(0,0,0)`. -/
theorem hexagon_vertices_symmetric (f m s : ℝ) :
    ((Hexagon.init 1 2 3).vertices.getD 0 ⟨0, 0, 0, none⟩).x = 2 ∧
    ((Hexagon.init 1 2 3).vertices.getD 0 ⟨0, 0, 0, none⟩).y = 0 ∧
    ((Hexagon.init 1 2 3).vertices.getD 0 ⟨0, 0, 0, none⟩).z = 0 ∧
    ((Hexagon.init 1 2 3).vertices.getD 1 ⟨0, 0, 0, none⟩).x = 1 ∧
    ((Hexagon.init 1 2 3).vertices.getD 1 ⟨0, 0, 0, none⟩).y = 3 ∧
    ((Hexagon.init 1 2 3).vertices.getD 1 ⟨0, 0, 0, none⟩).z = 0 ∧
    ((Hexagon.init f m s).vertices.map Point.x).sum = 0 ∧
    ((Hexagon.init f m s).vertices.map Point.y).sum = 0 ∧
    ((Hexagon.init f m s).vertices.map Point.z).sum = 0 := by
  simp [Hexagon.init]

/-! ## C3: `change_pose` argument semantics -/

/-- C3: `change_pose` treats an omitted angle argument and an explicit `0`
identically (both keep the previous value of that angle), any nonzero supplied
value replaces the previous one, and the result is the pose recomputed by
`save_new_pose` from the three resulting angles. -/
theorem change_pose_zero_is_omitted (l : Linkage) :
    ((∀ b g, l.change_pose (some 0) b g = l.change_pose none b g) ∧
     (∀ a g, l.change_pose a (some 0) g = l.change_pose a none g) ∧
     (∀ a b, l.change_pose a b (some 0) = l.change_pose a b none)) ∧
    ((∀ b g, (l.change_pose none b g)._alpha = l._alpha) ∧
     (∀ a g, (l.change_pose a none g)._beta = l._beta) ∧
     (∀ a b, (l.change_pose a b none)._gamma = l._gamma)) ∧
    ((∀ x b g, x ≠ 0 → (l.change_pose (some x) b g)._alpha = x) ∧
     (∀ x a g, x ≠ 0 → (l.change_pose a (some x) g)._beta = x) ∧
     (∀ x a b, x ≠ 0 → (l.change_pose a b (some x))._gamma = x)) ∧
    (∀ a b g, l.change_pose a b g =
      l.save_new_pose (l.change_pose a b g)._alpha (l.change_pose a b g)._beta
        (l.change_pose a b g)._gamma) := by
  refine ⟨⟨?_, ?_, ?_⟩, ⟨?_, ?_, ?_⟩, ⟨?_, ?_, ?_⟩, ?_⟩ <;>
    intros <;>
    simp_all [Linkage.change_pose, pyOr, save_new_pose_alpha, save_new_pose_beta,
      save_new_pose_gamma]

/-- An arbitrary concrete point, for witnesses. -/
def basePoint : Point := ⟨0, 0, 0, none⟩

/-- An arbitrary concrete linkage state, for witnesses. -/
def l0 : Linkage :=
  ⟨none, 1, 1, 1, 0, basePoint, 2, 3, 4, basePoint, basePoint, basePoint, basePoint⟩

/-- Witness for C3 at a concrete linkage: an explicit `0` behaves like an
omitted argument, a nonzero value replaces, an omitted one keeps. -/
theorem change_pose_zero_is_omitted_witness :
    l0.change_pose (some 0) (some 5) none = l0.change_pose none (some 5) none ∧
    ((7 : ℝ) ≠ 0 ∧ (l0.change_pose (some 7) none none)._alpha = 7) ∧
    (l0.change_pose none none none)._alpha = l0._alpha :=
  ⟨(change_pose_zero_is_omitted l0).1.1 (some 5) none,
   ⟨by norm_num, (change_pose_zero_is_omitted l0).2.2.1.1 7 none none (by norm_num)⟩,
   (change_pose_zero_is_omitted l0).2.1.1 none none⟩

/-! ## C1: neutral pose closed form -/

/-- The linkage of the spec's neutral-pose test case: `a=100, b=80, c=120`,
all angles zero, mount heading `0`, mount origin `(0,0,0)`. -/
noncomputable def neutralLinkage : Linkage :=
  Linkage.init 100 80 120 0 0 0 0 ⟨0, 0, 0, none⟩ none

/-- `|u - v| ≤ 1e-6`: the spec's tolerance for the neutral-pose values. -/
def approx (u v : ℝ) : Prop := |u - v| ≤ 1e-6

/-- The exact derived points of the neutral-pose linkage. -/
lemma neutralLinkage_eval :
    neutralLinkage.p1.x = 100 ∧ neutralLinkage.p1.y = 0 ∧ neutralLinkage.p1.z = 0 ∧
    neutralLinkage.p2.x = 180 ∧ neutralLinkage.p2.y = 0 ∧ neutralLinkage.p2.z = 0 ∧
    neutralLinkage.p3.x = 180 ∧ neutralLinkage.p3.y = 0 ∧ neutralLinkage.p3.z = -120 := by
  unfold neutralLinkage Linkage.init
  rw [save_new_pose_eq]
  norm_num [radians_zero]

/-- C1 counterexample: the claimed neutral-pose values `p1=(100,0,0)`,
`p2=(100,80,0)`, `p3=(100,80,-120)` do not hold, even to tolerance `1e-6`:
the code puts `p2` at `(180,0,0)`, in the straight line of the coxia. -/
theorem neutral_pose_claim_refuted :
    ¬ (approx neutralLinkage.p1.x 100 ∧ approx neutralLinkage.p1.y 0 ∧
       approx neutralLinkage.p1.z 0 ∧
       approx neutralLinkage.p2.x 100 ∧ approx neutralLinkage.p2.y 80 ∧
       approx neutralLinkage.p2.z 0 ∧
       approx neutralLinkage.p3.x 100 ∧ approx neutralLinkage.p3.y 80 ∧
       approx neutralLinkage.p3.z (-120)) := by
  intro h
  have hx := h.2.2.2.1
  rw [neutralLinkage_eval.2.2.2.1] at hx
  unfold approx at hx
  norm_num at hx

/-- C1 amended: for `a=100, b=80, c=120`, all angles zero, mount heading `0`
and mount origin `(0,0,0)`, the derived points are exactly `p1=(100,0,0)`,
`p2=(180,0,0)` and `p3=(180,0,-120)` (links a and b form a straight line at
the neutral pose; the tibia hangs straight down). -/
theorem neutral_pose_closed_form :
    neutralLinkage.p1.x = 100 ∧ neutralLinkage.p1.y = 0 ∧ neutralLinkage.p1.z = 0 ∧
    neutralLinkage.p2.x = 180 ∧ neutralLinkage.p2.y = 0 ∧ neutralLinkage.p2.z = 0 ∧
    neutralLinkage.p3.x = 180 ∧ neutralLinkage.p3.y = 0 ∧ neutralLinkage.p3.z = -120 :=
  neutralLinkage_eval

/-! ## C2: construction never validates -/

/-- A linkage constructed with negative dimensions. -/
noncomputable def negLinkage : Linkage :=
  Linkage.init (-1) (-2) (-3) 0 0 0 0 ⟨0, 0, 0, none⟩ none

/-- C2 counterexample: constructing a `Linkage` with `a=-1, b=-2, c=-3` and a
`VirtualHexapod` with all six dimensions negative succeeds silently, storing
the negative values; no `InvalidMeasurement` error exists in the code. -/
theorem construction_negative_succeeds :
    negLinkage._a = -1 ∧ negLinkage._b = -2 ∧ negLinkage._c = -3 ∧
    (VirtualHexapod.init (-1) (-2) (-3) (-4) (-5) (-6)).linkage_measurements = [-1, -2, -3] ∧
    (VirtualHexapod.init (-1) (-2) (-3) (-4) (-5) (-6)).body_measurements = [-4, -5, -6] :=
  ⟨rfl, rfl, rfl, rfl, rfl⟩

/-- C2 amended: construction performs no validation at all: even when a
dimension is negative, `Linkage` and `VirtualHexapod` construction succeeds
and stores the dimensions unchanged. -/
theorem construction_no_validation (a b c f m s nx : ℝ) (o : Point) (n : Option String)
    (_ha : a < 0) :
    (Linkage.init a b c 0 0 0 nx o n)._a = a ∧
    (Linkage.init a b c 0 0 0 nx o n)._b = b ∧
    (Linkage.init a b c 0 0 0 nx o n)._c = c ∧
    (VirtualHexapod.init a b c f m s).linkage_measurements = [a, b, c] ∧
    (VirtualHexapod.init a b c f m s).body_measurements = [f, m, s] :=
  ⟨rfl, rfl, rfl, rfl, rfl⟩

/-- Witness for C2's amended claim at `a = -1`. -/
theorem construction_no_validation_witness :
    (-1 : ℝ) < 0 ∧
    ((Linkage.init (-1) 2 3 0 0 0 0 ⟨0, 0, 0, none⟩ none)._a = -1 ∧
     (Linkage.init (-1) 2 3 0 0 0 0 ⟨0, 0, 0, none⟩ none)._b = 2 ∧
     (Linkage.init (-1) 2 3 0 0 0 0 ⟨0, 0, 0, none⟩ none)._c = 3 ∧
     (VirtualHexapod.init (-1) 2 3 4 5 6).linkage_measurements = [-1, 2, 3] ∧
     (VirtualHexapod.init (-1) 2 3 4 5 6).body_measurements = [4, 5, 6]) :=
  ⟨by norm_num, construction_no_validation (-1) 2 3 4 5 6 0 ⟨0, 0, 0, none⟩ none (by norm_num)⟩

/-! ## C7: rigid transforms -/

lemma frame_z_30 (t x y : ℝ) : (frame_zrotate_xytranslate t x y) 3 0 = 0 := rfl

lemma frame_z_31 (t x y : ℝ) : (frame_zrotate_xytranslate t x y) 3 1 = 0 := rfl

lemma frame_z_32 (t x y : ℝ) : (frame_zrotate_xytranslate t x y) 3 2 = 0 := rfl

lemma frame_z_33 (t x y : ℝ) : (frame_zrotate_xytranslate t x y) 3 3 = 1 := rfl

/-- The upper-left 3x3 rotation block of a homogeneous transform. -/
def rot3 (M : Matrix (Fin 4) (Fin 4) ℝ) : Matrix (Fin 3) (Fin 3) ℝ :=
  !![M 0 0, M 0 1, M 0 2;
     M 1 0, M 1 1, M 1 2;
     M 2 0, M 2 1, M 2 2]

lemma rot3_y (t x : ℝ) :
    rot3 (frame_yrotate_xtranslate t x) =
      !![Real.cos (radians t), 0, Real.sin (radians t);
         0, 1, 0;
         -Real.sin (radians t), 0, Real.cos (radians t)] := by
  simp [rot3, frame_yrotate_xtranslate, Matrix.vecHead, Matrix.vecTail, Function.comp]

lemma rot3_z (t x y : ℝ) :
    rot3 (frame_zrotate_xytranslate t x y) =
      !![Real.cos (radians t), -Real.sin (radians t), 0;
         Real.sin (radians t), Real.cos (radians t), 0;
         0, 0, 1] := by
  simp [rot3, frame_zrotate_xytranslate, Matrix.vecHead, Matrix.vecTail, Function.comp]

/-- C7: for every angle and translation, both frame builders produce a valid
rigid transform: the bottom row is `[0,0,0,1]` and the upper-left 3x3 block is
orthonormal with determinant `1`. -/
theorem frames_are_rigid (t x y : ℝ) :
    ((frame_yrotate_xtranslate t x) 3 0 = 0 ∧ (frame_yrotate_xtranslate t x) 3 1 = 0 ∧
     (frame_yrotate_xtranslate t x) 3 2 = 0 ∧ (frame_yrotate_xtranslate t x) 3 3 = 1) ∧
    (rot3 (frame_yrotate_xtranslate t x))ᵀ * rot3 (frame_yrotate_xtranslate t x) = 1 ∧
    (rot3 (frame_yrotate_xtranslate t x)).det = 1 ∧
    ((frame_zrotate_xytranslate t x y) 3 0 = 0 ∧ (frame_zrotate_xytranslate t x y) 3 1 = 0 ∧
     (frame_zrotate_xytranslate t x y) 3 2 = 0 ∧ (frame_zrotate_xytranslate t x y) 3 3 = 1) ∧
    (rot3 (frame_zrotate_xytranslate t x y))ᵀ * rot3 (frame_zrotate_xytranslate t x y) = 1 ∧
    (rot3 (frame_zrotate_xytranslate t x y)).det = 1 := by
  refine ⟨⟨frame_y_30 t x, frame_y_31 t x, frame_y_32 t x, frame_y_33 t x⟩, ?_, ?_,
    ⟨frame_z_30 t x y, frame_z_31 t x y, frame_z_32 t x y, frame_z_33 t x y⟩, ?_, ?_⟩
  · rw [rot3_y]
    ext i j
    fin_cases i <;> fin_cases j <;>
      simp [Matrix.mul_apply, Fin.sum_univ_three, Matrix.one_apply, Matrix.vecHead,
        Matrix.vecTail] <;>
      first
        | linear_combination Real.sin_sq_add_cos_sq (radians t)
        | linear_combination -Real.sin_sq_add_cos_sq (radians t)
        | ring
  · rw [rot3_y, Matrix.det_fin_three]
    simp [Matrix.vecHead, Matrix.vecTail]
    linear_combination Real.sin_sq_add_cos_sq (radians t)
  · rw [rot3_z]
    ext i j
    fin_cases i <;> fin_cases j <;>
      simp [Matrix.mul_apply, Fin.sum_univ_three, Matrix.one_apply, Matrix.vecHead,
        Matrix.vecTail] <;>
      first
        | linear_combination Real.sin_sq_add_cos_sq (radians t)
        | linear_combination -Real.sin_sq_add_cos_sq (radians t)
        | ring
  · rw [rot3_z, Matrix.det_fin_three]
    simp [Matrix.vecHead, Matrix.vecTail]
    linear_combination Real.sin_sq_add_cos_sq (radians t)

/-! ## C9: round trip through a transform and its inverse -/

/-- The rigid inverse of the y-rotation frame, used to compute `F⁻¹`. -/
noncomputable def frame_y_inv (t x : ℝ) : Matrix (Fin 4) (Fin 4) ℝ :=
  !![Real.cos (radians t), 0, -Real.sin (radians t), -(Real.cos (radians t) * x);
     0, 1, 0, 0;
     Real.sin (radians t), 0, Real.cos (radians t), -(Real.sin (radians t) * x);
     0, 0, 0, 1]

/-- The rigid inverse of the z-rotation frame. -/
noncomputable def frame_z_inv (t x y : ℝ) : Matrix (Fin 4) (Fin 4) ℝ :=
  !![Real.cos (radians t), Real.sin (radians t), 0,
       -(Real.cos (radians t) * x + Real.sin (radians t) * y);
     -Real.sin (radians t), Real.cos (radians t), 0,
       Real.sin (radians t) * x - Real.cos (radians t) * y;
     0, 0, 1, 0;
     0, 0, 0, 1]

lemma frame_y_inv_mul (t x : ℝ) :
    frame_y_inv t x * frame_yrotate_xtranslate t x = 1 := by
  ext i j
  fin_cases i <;> fin_cases j <;>
    simp [frame_y_inv, frame_yrotate_xtranslate, Matrix.mul_apply, Fin.sum_univ_four,
      Matrix.one_apply, Matrix.vecHead, Matrix.vecTail] <;>
    first
      | linear_combination Real.sin_sq_add_cos_sq (radians t)
      | linear_combination -Real.sin_sq_add_cos_sq (radians t)
      | ring

lemma frame_z_inv_mul (t x y : ℝ) :
    frame_z_inv t x y * frame_zrotate_xytranslate t x y = 1 := by
  ext i j
  fin_cases i <;> fin_cases j <;>
    simp [frame_z_inv, frame_zrotate_xytranslate, Matrix.mul_apply, Fin.sum_univ_four,
      Matrix.one_apply, Matrix.vecHead, Matrix.vecTail] <;>
    first
      | linear_combination Real.sin_sq_add_cos_sq (radians t)
      | linear_combination -Real.sin_sq_add_cos_sq (radians t)
      | ring

lemma frame_y_inv_eq (t x : ℝ) :
    (frame_yrotate_xtranslate t x)⁻¹ = frame_y_inv t x :=
  Matrix.inv_eq_left_inv (frame_y_inv_mul t x)

lemma frame_z_inv_eq (t x y : ℝ) :
    (frame_zrotate_xytranslate t x y)⁻¹ = frame_z_inv t x y :=
  Matrix.inv_eq_left_inv (frame_z_inv_mul t x y)

lemma get_point_wrt_one (p : Point) :
    p.get_point_wrt 1 = ⟨p.x, p.y, p.z, none⟩ := by
  simp [Point.get_point_wrt, Matrix.one_mulVec]

/-- C9: expressing a point through either frame builder and then applying the
matrix inverse of that frame recovers the original coordinates exactly (over
exact real arithmetic). -/
theorem transform_round_trip (t x y : ℝ) (p : Point) :
    (((p.get_point_wrt (frame_yrotate_xtranslate t x)).get_point_wrt
        (frame_yrotate_xtranslate t x)⁻¹).x = p.x ∧
     ((p.get_point_wrt (frame_yrotate_xtranslate t x)).get_point_wrt
        (frame_yrotate_xtranslate t x)⁻¹).y = p.y ∧
     ((p.get_point_wrt (frame_yrotate_xtranslate t x)).get_point_wrt
        (frame_yrotate_xtranslate t x)⁻¹).z = p.z) ∧
    (((p.get_point_wrt (frame_zrotate_xytranslate t x y)).get_point_wrt
        (frame_zrotate_xytranslate t x y)⁻¹).x = p.x ∧
     ((p.get_point_wrt (frame_zrotate_xytranslate t x y)).get_point_wrt
        (frame_zrotate_xytranslate t x y)⁻¹).y = p.y ∧
     ((p.get_point_wrt (frame_zrotate_xytranslate t x y)).get_point_wrt
        (frame_zrotate_xytranslate t x y)⁻¹).z = p.z) := by
  have hy : (p.get_point_wrt (frame_yrotate_xtranslate t x)).get_point_wrt
      (frame_yrotate_xtranslate t x)⁻¹ = ⟨p.x, p.y, p.z, none⟩ := by
    rw [← get_point_wrt_mul p _ _ (frame_y_30 t x) (frame_y_31 t x) (frame_y_32 t x)
      (frame_y_33 t x), frame_y_inv_eq, frame_y_inv_mul, get_point_wrt_one]
  have hz : (p.get_point_wrt (frame_zrotate_xytranslate t x y)).get_point_wrt
      (frame_zrotate_xytranslate t x y)⁻¹ = ⟨p.x, p.y, p.z, none⟩ := by
    rw [← get_point_wrt_mul p _ _ (frame_z_30 t x y) (frame_z_31 t x y) (frame_z_32 t x y)
      (frame_z_33 t x y), frame_z_inv_eq, frame_z_inv_mul, get_point_wrt_one]
  rw [hy, hz]
  exact ⟨⟨rfl, rfl, rfl⟩, ⟨rfl, rfl, rfl⟩⟩

/-! ## C4, C5, C6: the ground-contact heuristic -/

lemma sortDesc_perm (legs : List Linkage) : (sortDesc legs).Perm legs :=
  List.perm_insertionSort fhGe legs

lemma sortDesc_sorted (legs : List Linkage) : (sortDesc legs).Sorted fhGe :=
  List.sorted_insertionSort fhGe legs

lemma sortDesc_length (legs : List Linkage) : (sortDesc legs).length = legs.length :=
  (sortDesc_perm legs).length_eq

lemma head_dropWhile_false (p : Linkage → Bool) :
    ∀ (l : List Linkage) (a : Linkage), (l.dropWhile p).head? = some a → p a = false := by
  intro l
  induction l with
  | nil => simp [List.dropWhile]
  | cons x xs ih =>
      intro a ha
      rw [List.dropWhile_cons] at ha
      by_cases h : p x
      · rw [if_pos h] at ha
        exact ih a ha
      · rw [if_neg h] at ha
        simp at ha
        rw [ha] at h
        exact Bool.eq_false_iff.mpr h

lemma sorted_three (hx : VirtualHexapod) (hlen : hx.legs.length = 6) :
    ∃ s0 s1 s2 rest, sortDesc hx.legs = s0 :: s1 :: s2 :: rest := by
  have hl : (sortDesc hx.legs).length = 6 := by rw [sortDesc_length, hlen]
  match e : sortDesc hx.legs with
  | [] => rw [e] at hl; simp at hl
  | [s0] => rw [e] at hl; simp at hl
  | [s0, s1] => rw [e] at hl; simp at hl
  | s0 :: s1 :: s2 :: rest => exact ⟨s0, s1, s2, rest, rfl⟩

/-- C5: `find_feet_on_ground` returns `(None, None)` exactly when every leg's
floor height is nonpositive (equivalently, when the largest floor height among
the six legs is nonpositive). -/
theorem find_feet_none_iff_airborne (hx : VirtualHexapod) (hlen : hx.legs.length = 6) :
    hx.find_feet_on_ground = (none, none) ↔ ∀ leg ∈ hx.legs, leg.floor_height ≤ 0 := by
  obtain ⟨s0, s1, s2, rest, hs⟩ := sorted_three hx hlen
  have hmem : ∀ leg ∈ hx.legs, leg = s0 ∨ leg ∈ s1 :: s2 :: rest := by
    intro leg hleg
    have : leg ∈ sortDesc hx.legs := (sortDesc_perm hx.legs).mem_iff.mpr hleg
    rw [hs] at this
    simpa using this
  have hsorted := sortDesc_sorted hx.legs
  rw [hs] at hsorted
  have hmax : ∀ leg ∈ hx.legs, leg.floor_height ≤ s0.floor_height := by
    intro leg hleg
    rcases hmem leg hleg with h | h
    · rw [h]
    · exact (List.sorted_cons.mp hsorted).1 leg h
  have hs0mem : s0 ∈ hx.legs := by
    have : s0 ∈ sortDesc hx.legs := by rw [hs]; exact List.mem_cons_self s0 _
    exact (sortDesc_perm hx.legs).mem_iff.mp this
  unfold VirtualHexapod.find_feet_on_ground
  rw [hs]
  by_cases h0 : s0.floor_height ≤ 0
  · simp only [findFeetAux, if_pos h0, true_iff]
    intro leg hleg
    exact le_trans (hmax leg hleg) h0
  · simp only [findFeetAux, if_neg h0]
    constructor
    · intro h
      exact absurd (congrArg Prod.fst h) (by simp)
    · intro hall
      exact absurd (hall s0 hs0mem) h0

lemma find_feet_some (hx : VirtualHexapod) (hlen : hx.legs.length = 6)
    (hne : hx.find_feet_on_ground ≠ (none, none)) :
    ∃ s0 s1 s2 rest, sortDesc hx.legs = s0 :: s1 :: s2 :: rest ∧
      ¬ s0.floor_height ≤ 0 ∧
      hx.find_feet_on_ground =
        (some ((s0 :: s1 :: s2 :: rest).takeWhile
            fun leg => decide (s2.floor_height - 2 ≤ leg.floor_height)),
         ((s0 :: s1 :: s2 :: rest).takeWhile
            fun leg => decide (s2.floor_height - 2 ≤ leg.floor_height)).head?) := by
  obtain ⟨s0, s1, s2, rest, hs⟩ := sorted_three hx hlen
  by_cases h0 : s0.floor_height ≤ 0
  · exfalso
    apply hne
    unfold VirtualHexapod.find_feet_on_ground
    rw [hs]
    simp only [findFeetAux, if_pos h0]
  · refine ⟨s0, s1, s2, rest, hs, h0, ?_⟩
    unfold VirtualHexapod.find_feet_on_ground
    rw [hs]
    simp only [findFeetAux, if_neg h0]

/-- C6: whenever `find_feet_on_ground` does not return `(None, None)`, the
returned feet list has at least three legs (the first three of the sorted
order always pass the threshold test), the pivot is not `None`, and the pivot
has the largest floor height among all legs. -/
theorem find_feet_pivot_exists (hx : VirtualHexapod) (hlen : hx.legs.length = 6)
    (hne : hx.find_feet_on_ground ≠ (none, none)) :
    ∃ feet pivot, hx.find_feet_on_ground = (some feet, some pivot) ∧
      3 ≤ feet.length ∧ pivot ∈ hx.legs ∧
      ∀ leg ∈ hx.legs, leg.floor_height ≤ pivot.floor_height := by
  obtain ⟨s0, s1, s2, rest, hs, h0, heq⟩ := find_feet_some hx hlen hne
  have hsorted := sortDesc_sorted hx.legs
  rw [hs] at hsorted
  obtain ⟨h01, hsorted1⟩ := List.sorted_cons.mp hsorted
  obtain ⟨h12, _⟩ := List.sorted_cons.mp hsorted1
  have h20 : s2.floor_height ≤ s0.floor_height := h01 s2 (by simp)
  have h21 : s2.floor_height ≤ s1.floor_height := h12 s2 (by simp)
  have h10 : s1.floor_height ≤ s0.floor_height := h01 s1 (by simp)
  have htw : (s0 :: s1 :: s2 :: rest).takeWhile
      (fun leg => decide (s2.floor_height - 2 ≤ leg.floor_height)) =
      s0 :: s1 :: s2 :: (rest.takeWhile
        fun leg => decide (s2.floor_height - 2 ≤ leg.floor_height)) := by
    simp only [List.takeWhile_cons, decide_eq_true_eq]
    rw [if_pos (by linarith), if_pos (by linarith), if_pos (by linarith)]
  rw [htw] at heq
  refine ⟨s0 :: s1 :: s2 :: (rest.takeWhile
      fun leg => decide (s2.floor_height - 2 ≤ leg.floor_height)), s0, ?_, ?_, ?_, ?_⟩
  · rw [heq, List.head?_cons]
  · simp
  · have : s0 ∈ sortDesc hx.legs := by rw [hs]; exact List.mem_cons_self s0 _
    exact (sortDesc_perm hx.legs).mem_iff.mp this
  · intro leg hleg
    have hmem : leg ∈ sortDesc hx.legs := (sortDesc_perm hx.legs).mem_iff.mpr hleg
    rw [hs] at hmem
    rcases List.mem_cons.mp hmem with h | h
    · rw [h]
    · exact h01 leg h

/-- C4: whenever `find_feet_on_ground` does not return `(None, None)`, the
sorted order has at least three legs and the returned feet list is exactly
the maximal prefix of the sorted order (a permutation of the legs, sorted by
descending floor height) whose members all have floor height at least
`sortedLegs[2].floor_height() - 2`: every member of the list passes the
threshold and the next leg of the sorted order, if any, fails it. The
returned pivot is the first element of that list. -/
theorem find_feet_threshold_band (hx : VirtualHexapod) (hlen : hx.legs.length = 6)
    (hne : hx.find_feet_on_ground ≠ (none, none)) :
    ∃ s0 s1 s2 rest, sortDesc hx.legs = s0 :: s1 :: s2 :: rest ∧
      (sortDesc hx.legs).Sorted fhGe ∧ (sortDesc hx.legs).Perm hx.legs ∧
      ∃ feet, hx.find_feet_on_ground = (some feet, feet.head?) ∧
        ∃ rest2, sortDesc hx.legs = feet ++ rest2 ∧
          (∀ leg ∈ feet, s2.floor_height - 2 ≤ leg.floor_height) ∧
          ∀ leg, rest2.head? = some leg → leg.floor_height < s2.floor_height - 2 := by
  obtain ⟨s0, s1, s2, rest, hs, h0, heq⟩ := find_feet_some hx hlen hne
  refine ⟨s0, s1, s2, rest, hs, sortDesc_sorted _, sortDesc_perm _,
    (s0 :: s1 :: s2 :: rest).takeWhile
      (fun leg => decide (s2.floor_height - 2 ≤ leg.floor_height)), heq,
    (s0 :: s1 :: s2 :: rest).dropWhile
      (fun leg => decide (s2.floor_height - 2 ≤ leg.floor_height)), ?_, ?_, ?_⟩
  · rw [hs, List.takeWhile_append_dropWhile]
  · intro leg hleg
    have := List.mem_takeWhile_imp hleg
    simpa using this
  · intro leg hleg
    have hfalse := head_dropWhile_false _ _ leg hleg
    have : ¬ (s2.floor_height - 2 ≤ leg.floor_height) := by simpa using hfalse
    linarith

/-! ## Witnesses for the ground-contact claims -/

/-- A concrete hexapod with `c = 5`: every leg stands straight down with floor
height `5`. -/
noncomputable def hex5 : VirtualHexapod := VirtualHexapod.init 0 0 5 0 0 0

lemma hex5_legs : hex5.legs =
    [Linkage.init 0 0 5 0 0 0 0 ⟨0, 0, 0, none⟩ (some "right-middle"),
     Linkage.init 0 0 5 0 0 0 45 ⟨0, 0, 0, none⟩ (some "right-front"),
     Linkage.init 0 0 5 0 0 0 135 ⟨0, 0, 0, none⟩ (some "left-front"),
     Linkage.init 0 0 5 0 0 0 180 ⟨0, 0, 0, none⟩ (some "left-middle"),
     Linkage.init 0 0 5 0 0 0 225 ⟨0, 0, 0, none⟩ (some "left-back"),
     Linkage.init 0 0 5 0 0 0 315 ⟨0, 0, 0, none⟩ (some "right-back")] := by
  simp [hex5, VirtualHexapod.init, store_neutral_legs, Hexagon.init, Hexagon.NEW_X_AXES,
    Hexagon.VERTEX_NAMES]

lemma hex5_fh : ∀ leg ∈ hex5.legs, leg.floor_height = 5 := by
  rw [hex5_legs]
  intro leg hleg
  simp at hleg
  rcases hleg with h | h | h | h | h | h <;>
    rw [h, floor_height_init] <;>
    norm_num [radians_zero]

lemma sortDesc_const (k : ℝ) : ∀ l : List Linkage,
    (∀ a ∈ l, a.floor_height = k) → sortDesc l = l := by
  intro l
  induction l with
  | nil => intro _; rfl
  | cons x xs ih =>
      intro hall
      have hx : sortDesc (x :: xs) = List.orderedInsert fhGe x (sortDesc xs) := rfl
      rw [hx, ih fun a ha => hall a (List.mem_cons_of_mem x ha)]
      cases xs with
      | nil => rfl
      | cons y t =>
          have : fhGe x y := by
            unfold fhGe
            rw [hall x (by simp), hall y (by simp)]
          simp [List.orderedInsert, this]

lemma hex5_sort : sortDesc hex5.legs = hex5.legs :=
  sortDesc_const 5 hex5.legs hex5_fh

lemma hex5_eval : hex5.find_feet_on_ground =
    (some hex5.legs, some (Linkage.init 0 0 5 0 0 0 0 ⟨0, 0, 0, none⟩ (some "right-middle"))) := by
  have hfh : ∀ (nx : ℝ) (o : Point) (n : Option String),
      (Linkage.init 0 0 5 0 0 0 nx o n).floor_height = 5 := by
    intro nx o n
    rw [floor_height_init]
    norm_num [radians_zero]
  unfold VirtualHexapod.find_feet_on_ground
  rw [hex5_sort, hex5_legs]
  simp only [findFeetAux, List.takeWhile_cons, List.takeWhile_nil, hfh, decide_eq_true_eq]
  norm_num

/-- Witness for C5 at `hex5`. -/
theorem find_feet_none_iff_airborne_witness :
    hex5.find_feet_on_ground = (none, none) ↔ ∀ leg ∈ hex5.legs, leg.floor_height ≤ 0 :=
  find_feet_none_iff_airborne hex5 rfl

/-- Witness for C6 at `hex5`: all six legs are on the ground and the pivot is
the first leg. -/
theorem find_feet_pivot_exists_witness :
    hex5.legs.length = 6 ∧ hex5.find_feet_on_ground ≠ (none, none) ∧
    (∃ feet pivot, hex5.find_feet_on_ground = (some feet, some pivot) ∧
      3 ≤ feet.length ∧ pivot ∈ hex5.legs ∧
      ∀ leg ∈ hex5.legs, leg.floor_height ≤ pivot.floor_height) := by
  have hne : hex5.find_feet_on_ground ≠ (none, none) := by
    rw [hex5_eval]
    simp
  exact ⟨rfl, hne, find_feet_pivot_exists hex5 rfl hne⟩

/-- Witness for C4 at `hex5`. -/
theorem find_feet_threshold_band_witness :
    hex5.legs.length = 6 ∧ hex5.find_feet_on_ground ≠ (none, none) ∧
    (∃ s0 s1 s2 rest, sortDesc hex5.legs = s0 :: s1 :: s2 :: rest ∧
      (sortDesc hex5.legs).Sorted fhGe ∧ (sortDesc hex5.legs).Perm hex5.legs ∧
      ∃ feet, hex5.find_feet_on_ground = (some feet, feet.head?) ∧
        ∃ rest2, sortDesc hex5.legs = feet ++ rest2 ∧
          (∀ leg ∈ feet, s2.floor_height - 2 ≤ leg.floor_height) ∧
          ∀ leg, rest2.head? = some leg → leg.floor_height < s2.floor_height - 2) := by
  have hne : hex5.find_feet_on_ground ≠ (none, none) := by
    rw [hex5_eval]
    simp
  exact ⟨rfl, hne, find_feet_threshold_band hex5 rfl hne⟩
